import Mathlib

/-!
Verification of the Streaming Protocol Translator and Conversation
Continuity Manager of `app/providers/perplexity_provider.py`.

The embedding models:
- JSON values (`JVal`) as delivered by Python's `json.loads`;
- Python-level dynamic operations (`in`, indexing, `.get`, `len`,
  slicing, truthiness, `str()`) as partial functions into `Option`,
  where `none` marks a raised Python exception that is caught by the
  enclosing bare `except:` handler of the source;
- the Envelope Decoder (`stream_generator`, lines 276–346): the
  `"answer"`-key branch and the `"text"`-key branch, which the source
  duplicates (they are *not* identical);
- the Delta Emitter (lines 348–355) over character lists (Python
  strings are sequences of code points, matching `List Char`);
- the outbound frame sequence of `stream_generator` (status check,
  per-line processing, warning/stop/[DONE] trailer);
- the `ConversationManager` (lines 26–133) with its bounded
  `OrderedDict` store, modelled as an insertion-ordered association
  list; `uuid.uuid4()` is modelled as a draw from a fresh-name counter
  carried in the state, and `time.time()` as an explicit argument.

`json.loads` is the Python standard library, not repository code; it is
passed as an explicit parameter `parse : String → Option JVal`
(`none` = `json.JSONDecodeError`).
-/

/-- JSON values as produced by `json.loads`. Numbers are restricted to
integers; no claim in scope depends on float payloads. -/
inductive JVal where
  | jnull
  | jbool (b : Bool)
  | jnum (n : Int)
  | jstr (s : String)
  | jarr (xs : List JVal)
  | jobj (fields : List (String × JVal))

open JVal

/-- Association-list lookup for JSON objects (first binding wins,
matching Python dict semantics for parsed JSON, whose keys are unique). -/
def jLookup : List (String × JVal) → String → Option JVal
  | [], _ => none
  | p :: ps, k => if p.1 = k then some p.2 else jLookup ps k

/-- Python `str.strip()`, computed structurally on code points. The
source only ever strips ASCII whitespace framing noise, which
`Char.isWhitespace` (space, tab, CR, LF) covers. -/
def pyStrip (s : String) : String :=
  ⟨((s.data.dropWhile Char.isWhitespace).reverse.dropWhile Char.isWhitespace).reverse⟩

/-- Python `str.startswith`, computed structurally on code points. -/
def strStartsWith (s pre : String) : Bool := pre.data.isPrefixOf s.data

/-- Python slicing `s[n:]` on a string, computed structurally on code
points (Python indexes code points, as `List Char` does). -/
def strDropChars (s : String) (n : Nat) : String := ⟨s.data.drop n⟩

/-- Python membership test `k in v` for a string key `k`: key lookup on
dicts, element equality on lists, substring test on strings, and a
`TypeError` (`none`) on non-container values. -/
def pyContains (v : JVal) (k : String) : Option Bool :=
  match v with
  | jobj fs => some (jLookup fs k).isSome
  | jarr xs => some (xs.any (fun x => match x with | jstr s => s = k | _ => false))
  | jstr s => some ((List.range (s.data.length + 1)).any
      (fun i => k.data.isPrefixOf (s.data.drop i)))
  | _ => none

/-- Python indexing `v[k]` with a string key: dict lookup (`none` also
covers the `KeyError` on a missing key); a `TypeError` on every other
value. -/
def pyIndexKey (v : JVal) (k : String) : Option JVal :=
  match v with
  | jobj fs => jLookup fs k
  | _ => none

/-- Python `v.get(k, d)`: defaulted dict lookup; an `AttributeError`
(`none`) when `v` is not a dict. -/
def pyGetDefault (v : JVal) (k : String) (d : JVal) : Option JVal :=
  match v with
  | jobj fs => some ((jLookup fs k).getD d)
  | _ => none

/-- Python iteration `for x in v`: lists yield elements, dicts yield
their keys, strings yield one-character strings; other values raise
`TypeError`. -/
def pyIterList (v : JVal) : Option (List JVal) :=
  match v with
  | jarr xs => some xs
  | jobj fs => some (fs.map (fun p => jstr p.1))
  | jstr s => some (s.data.map (fun c => jstr (String.singleton c)))
  | _ => none

/-- Python truthiness. -/
def pyTruthy (v : JVal) : Bool :=
  match v with
  | jnull => false
  | jbool b => b
  | jnum n => n ≠ 0
  | jstr s => s ≠ ""
  | jarr xs => !xs.isEmpty
  | jobj fs => !fs.isEmpty

/-- Python `len(v)`: defined on strings (code points), lists and dicts;
`TypeError` otherwise. -/
def pyLen (v : JVal) : Option Nat :=
  match v with
  | jstr s => some s.length
  | jarr xs => some xs.length
  | jobj fs => some fs.length
  | _ => none

/-- Python slicing `v[n:]`: strings and lists; `TypeError` otherwise
(dicts do not support slicing). -/
def pySliceFrom (v : JVal) (n : Nat) : Option JVal :=
  match v with
  | jstr s => some (jstr (strDropChars s n))
  | jarr xs => some (jarr (xs.drop n))
  | _ => none

/-- Separator-joined concatenation used for `", ".join(...)`. -/
def joinSep (sep : String) : List String → String
  | [] => ""
  | [x] => x
  | x :: xs => x ++ sep ++ joinSep sep xs

mutual

/-- Python `repr` of a JSON-decoded value, as used by `str()` on
containers. String escaping inside `repr` is not modelled; no claim
evaluates it on strings containing quotes or backslashes. -/
def pyReprVal : JVal → String
  | jnull => "None"
  | jbool b => if b then "True" else "False"
  | jnum n => toString n
  | jstr s => "'" ++ s ++ "'"
  | jarr xs => "[" ++ pyReprList xs ++ "]"
  | jobj fs => "\x7b" ++ pyReprFields fs ++ "\x7d"

/-- Comma-joined reprs of list elements. -/
def pyReprList : List JVal → String
  | [] => ""
  | [x] => pyReprVal x
  | x :: xs => pyReprVal x ++ ", " ++ pyReprList xs

/-- Comma-joined reprs of dict entries. -/
def pyReprFields : List (String × JVal) → String
  | [] => ""
  | [p] => "'" ++ p.1 ++ "': " ++ pyReprVal p.2
  | p :: ps => "'" ++ p.1 ++ "': " ++ pyReprVal p.2 ++ ", " ++ pyReprFields ps

end

/-- Python `str(v)` for a JSON-decoded value: identity on strings,
`repr` otherwise. -/
def pyStr (v : JVal) : String :=
  match v with
  | jstr s => s
  | v => pyReprVal v

/-- Python `"".join(v)`: concatenation of an iterable of strings;
`TypeError` when `v` is not iterable or yields a non-string. -/
def pyJoinEmpty (v : JVal) : Option String :=
  match pyIterList v with
  | none => none
  | some xs => xs.foldlM (fun acc x =>
      match x with
      | jstr s => some (acc ++ s)
      | _ => none) ""

/-- Nested-FINAL answer handling (lines 301–307 / 330–336): a string
answer that itself parses as JSON with an `"answer"` field contributes
that field when it is a string; every failure inside the inner `try`
(parse error, membership `TypeError`, non-dict indexing, or the
`TypeError` of concatenating a non-string) falls back to the raw
string. A parsed value without an `"answer"` field contributes nothing
(there is no `else` in the source). -/
def finalNestedContribution (parse : String → Option JVal) (a : String) : String :=
  match (do
    let obj ← parse a
    let hasA ← pyContains obj "answer"
    if hasA then do
      let v ← pyIndexKey obj "answer"
      match v with
      | jstr s => some s
      | _ => none
    else
      some "") with
  | some s => s
  | none => a

/-- One element of the `[q["query"] for q in queries]` comprehension
(line 291): index the step's query object and require a string (a
missing key or non-string query raises, caught by the branch-level
`except`). -/
def queryName (q : JVal) : Option String := do
  let v ← pyIndexKey q "query"
  match v with
  | jstr s => some s
  | _ => none

/-- One iteration of the step loop of the `"answer"` branch
(lines 285–309): `SEARCH_WEB`, `SEARCH_RESULTS` and `FINAL` steps
contribute text; any other step type is ignored. `none` is a raised
exception (caught by the branch-level `except` at line 317). -/
def stepAccAnswer (parse : String → Option JVal) (acc : String) (step : JVal) :
    Option String := do
  let stepType ← pyGetDefault step "step_type" jnull
  let content ← pyGetDefault step "content" (jobj [])
  match stepType with
  | jstr "SEARCH_WEB" => do
    let queries ← pyGetDefault content "queries" (jarr [])
    let ql ← pyIterList queries
    let qs ← ql.mapM queryName
    pure (acc ++ "> 🔍 Searching: " ++ joinSep ", " qs ++ "\n\n")
  | jstr "SEARCH_RESULTS" => do
    let results ← pyGetDefault content "web_results" (jarr [])
    if pyTruthy results then do
      let n ← pyLen results
      pure (acc ++ "> 📚 Found " ++ toString n ++ " sources\n\n")
    else
      pure acc
  | jstr "FINAL" => do
    let fa ← pyGetDefault content "answer" jnull
    match fa with
    | jstr a => pure (acc ++ finalNestedContribution parse a)
    | _ => pure (acc ++ pyStr fa)
  | _ => pure acc

/-- One iteration of the step loop of the `"text"` branch
(lines 325–336): only `FINAL` steps with a *string* answer contribute;
`SEARCH_WEB`, `SEARCH_RESULTS`, non-string `FINAL` answers and all
other step types are ignored. -/
def stepAccText (parse : String → Option JVal) (acc : String) (step : JVal) :
    Option String := do
  let stepType ← pyGetDefault step "step_type" jnull
  let _content ← pyGetDefault step "content" (jobj [])
  match stepType with
  | jstr "FINAL" => do
    let fa ← pyGetDefault _content "answer" jnull
    match fa with
    | jstr a => pure (acc ++ finalNestedContribution parse a)
    | _ => pure acc
  | _ => pure acc

/-- Body of the inner `try` of the `"answer"` branch (lines 282–316):
produces the value assigned to `current_full_text`, or `none` when a
Python exception is raised (then the `except` at line 317 assigns the
raw value). -/
def tryAnswer (parse : String → Option JVal) (raw : JVal) : Option JVal :=
  match raw with
  | jstr s =>
    if strStartsWith (pyStrip s) "[" then do
      let steps ← parse s
      let l ← pyIterList steps
      let acc ← l.foldlM (stepAccAnswer parse) ""
      pure (jstr acc)
    else if strStartsWith (pyStrip s) "\x7b" then do
      let inner ← parse s
      let hasA ← pyContains inner "answer"
      if hasA then
        pyIndexKey inner "answer"
      else
        pure (jstr "")
    else
      pure (jstr s)
  | v => pure v

/-- Envelope decoding of the value found under the `"answer"` key
(lines 281–318), including the catch-all fallback to the raw value. -/
def decodeAnswerBranch (parse : String → Option JVal) (raw : JVal) : JVal :=
  match tryAnswer parse raw with
  | some v => v
  | none => raw

/-- Body of the inner `try` of the `"text"` branch (lines 322–344);
unlike the `"answer"` branch it also recognises an inner object with a
`"chunks"` field, whose string elements are concatenated. -/
def tryText (parse : String → Option JVal) (raw : JVal) : Option JVal :=
  match raw with
  | jstr s =>
    if strStartsWith (pyStrip s) "[" then do
      let steps ← parse s
      let l ← pyIterList steps
      let acc ← l.foldlM (stepAccText parse) ""
      pure (jstr acc)
    else if strStartsWith (pyStrip s) "\x7b" then do
      let inner ← parse s
      let hasA ← pyContains inner "answer"
      if hasA then
        pyIndexKey inner "answer"
      else do
        let hasC ← pyContains inner "chunks"
        if hasC then do
          let ch ← pyIndexKey inner "chunks"
          let joined ← pyJoinEmpty ch
          pure (jstr joined)
        else
          pure (jstr "")
    else
      pure (jstr s)
  | v => pure v

/-- Envelope decoding of the value found under the `"text"` key
(lines 320–346), including the catch-all fallback to the raw value. -/
def decodeTextBranch (parse : String → Option JVal) (raw : JVal) : JVal :=
  match tryText parse raw with
  | some v => v
  | none => raw

/-- Envelope Decoder for one parsed upstream event (lines 278–346):
`"answer"` is probed first, then `"text"`; an event with neither key
leaves `current_full_text` as the empty string. The result is the
Python value of `current_full_text`; `none` is an exception escaping to
the per-line handler at line 357 (possible only for non-dict events). -/
def decodeEvent (parse : String → Option JVal) (data : JVal) : Option JVal := do
  let hasAns ← pyContains data "answer"
  if hasAns then do
    let raw ← pyIndexKey data "answer"
    pure (decodeAnswerBranch parse raw)
  else do
    let hasTxt ← pyContains data "text"
    if hasTxt then do
      let raw ← pyIndexKey data "text"
      pure (decodeTextBranch parse raw)
    else
      pure (jstr "")

/-- String projection of a decoded value, used to compare decoder
results without a global decidable equality on `JVal`. -/
def JVal.strVal : JVal → Option String
  | jstr s => some s
  | _ => none

/-- Delta Emitter state (lines 259–260 / 395–396): the longest snapshot
seen so far and whether any content frame was emitted. Snapshots are
character lists; a Python string is its sequence of code points. -/
structure EmitState where
  lastFullText : List Char
  hasEmittedContent : Bool

/-- One Delta Emitter step (lines 348–355): an empty snapshot is
ignored; a snapshot strictly longer than `lastFullText` emits the
suffix starting at index `lastFullText.length` — chosen by length
alone — and updates the state; anything else is ignored. -/
def emitDelta (st : EmitState) (cur : List Char) : Option (List Char) × EmitState :=
  if cur.isEmpty then
    (none, st)
  else if st.lastFullText.length < cur.length then
    (some (cur.drop st.lastFullText.length), ⟨cur, true⟩)
  else
    (none, st)

/-- Runs the Delta Emitter over a sequence of decoded snapshots,
collecting the emitted deltas in order. -/
def emitAll (st : EmitState) : List (List Char) → List (List Char) × EmitState
  | [] => ([], st)
  | s :: ss =>
    match emitDelta st s with
    | (some d, st') =>
      let r := emitAll st' ss
      (d :: r.1, r.2)
    | (none, st') => emitAll st' ss

/-- Concatenation of the emitted deltas. -/
def concatAll : List (List Char) → List Char
  | [] => []
  | d :: ds => d ++ concatAll ds

/-- Last element of a snapshot sequence, with a default for the empty
sequence. -/
def lastSnap : List (List Char) → List Char → List Char
  | [], d => d
  | s :: ss, _ => lastSnap ss s

/-- Boolean test that snapshot `b` extends snapshot `a`, i.e. `a` is a
prefix of `b`. -/
def extendsText (a b : List Char) : Bool := b.take a.length == a

/-- Modelled from the spec: `app/utils/sse_utils.py`
(`create_chat_completion_chunk`, `create_sse_data`, `DONE_CHUNK`) is not
under `src/`. Per §6 of the specification, each outbound frame is
either a chunk carrying `delta.content` together with a
`finish_reason` (`null` for content deltas, `"stop"` for the stop
frame), or the terminal `[DONE]` sentinel. The serialized envelope
fields (`id`, `model`, `created`, …) carry no claim-relevant
information and are omitted. -/
inductive Frame where
  | chunk (content : JVal) (finishReason : Option String)
  | done

/-- Error-content text of the non-success status path (lines 255 and
391). -/
def upstreamErrorMessage (status : Nat) : String :=
  "[Error: Upstream " ++ toString status ++
    " - Cookie may have expired, please re-import via Web UI]"

/-- Per-request translator state (lines 259–260): the Python value of
`last_full_text` and the `has_content` flag. -/
structure StreamSt where
  lastFullText : JVal
  hasContent : Bool

/-- Per-line processing of the success path (lines 267–359): framing
noise and the `[DONE]` payload are discarded; otherwise the payload is
parsed, decoded, and handed to the emitter logic; any exception
(`none`) is caught at line 357 and skips the line, leaving the state
unchanged. -/
def processLine (parse : String → Option JVal) (st : StreamSt) (line : String) :
    StreamSt × List Frame :=
  let ls := pyStrip line
  if ls = "" then (st, [])
  else if ¬ strStartsWith ls "data: " then (st, [])
  else
    let js := pyStrip (strDropChars ls 6)
    if js = "[DONE]" then (st, [])
    else
      match (do
        let data ← parse js
        let cur ← decodeEvent parse data
        if pyTruthy cur then do
          let lc ← pyLen cur
          let ll ← pyLen st.lastFullText
          if ll < lc then do
            let delta ← pySliceFrom cur ll
            pure (some delta, cur)
          else
            pure (none, st.lastFullText)
        else
          pure (none, st.lastFullText)) with
      | none => (st, [])
      | some (some delta, last') => (⟨last', true⟩, [Frame.chunk delta none])
      | some (none, last') => (⟨last', st.hasContent⟩, [])

/-- Folds `processLine` over the upstream lines, collecting frames. -/
def streamLines (parse : String → Option JVal) (st : StreamSt) :
    List String → StreamSt × List Frame
  | [] => (st, [])
  | l :: ls =>
    let r := processLine parse st l
    let r' := streamLines parse r.1 ls
    (r'.1, r.2 ++ r'.2)

/-- Outbound frame sequence of `stream_generator` (lines 246–365) as a
function of the upstream status and line stream: a non-success status
short-circuits to the error frame and the sentinel; otherwise the lines
are processed and the warning/stop/[DONE] trailer is appended. -/
def streamGenerator (parse : String → Option JVal) (status : Nat)
    (lines : List String) : List Frame :=
  if status ≠ 200 then
    [Frame.chunk (jstr (upstreamErrorMessage status)) (some "stop"), Frame.done]
  else
    let r := streamLines parse ⟨jstr "", false⟩ lines
    r.2 ++
      (if !r.1.hasContent then
        [Frame.chunk (jstr "[Warning: No content returned]") (some "stop")]
      else []) ++
      [Frame.chunk (jstr "") (some "stop"), Frame.done]

/-- Per-conversation session state (`self.conversations[cid]`,
line 34): thread identifier, optional backend identifier, turn counter
and last-access time. Thread and backend identifiers are fresh tokens
drawn from the manager's counter (modelling `uuid.uuid4()`). -/
structure Session where
  threadUuid : Nat
  backendUuid : Option Nat
  turnCount : Nat
  lastUsed : Nat
  deriving DecidableEq

/-- Result record of `get_or_create_conversation` (lines 62–67, 75–80,
98–103). -/
structure ConvResult where
  threadUuid : Nat
  backendUuid : Option Nat
  isNew : Bool
  turnCount : Nat
  deriving DecidableEq

/-- The `ConversationManager` (lines 26–36): bounds, the `OrderedDict`
store as an insertion-ordered association list (head = oldest), and the
fresh-uuid counter. The `asyncio.Lock` serializes each operation; each
operation below is one atomic critical section. -/
structure ConversationManager where
  maxTurns : Nat
  maxConversations : Nat
  conversations : List (String × Session)
  nextUuid : Nat

/-- Constructor `ConversationManager.__init__` (lines 31–36). -/
def mkConversationManager (maxTurns maxConversations : Nat) : ConversationManager :=
  ⟨maxTurns, maxConversations, [], 0⟩

/-- Ordered-association-list lookup (Python `cid in self.conversations`
and `self.conversations[cid]`). -/
def alistLookup : List (String × Session) → String → Option Session
  | [], _ => none
  | p :: ps, k => if p.1 = k then some p.2 else alistLookup ps k

/-- In-place value update of an existing key, preserving order
(mutating the entry dict, as the rotation branch does). -/
def updateVal (xs : List (String × Session)) (k : String) (v : Session) :
    List (String × Session) :=
  xs.map (fun p => if p.1 = k then (k, v) else p)

/-- Key removal (`del` / the removal part of `move_to_end`). -/
def removeKey (xs : List (String × Session)) (k : String) :
    List (String × Session) :=
  xs.filter (fun p => p.1 != k)

/-- Eviction loop (lines 84–86): `while len(conversations) >= max:
popitem(last=False)` pops from the front (oldest insertion/access
position). -/
def evictOldest : List (String × Session) → Nat → List (String × Session)
  | [], _ => []
  | p :: ps, maxC =>
    if maxC ≤ (p :: ps).length then evictOldest ps maxC else p :: ps

/-- The `get_or_create_conversation` operation (lines 38–103), with
`time.time()` passed as `now`. Rotation (turn threshold reached)
replaces the session fields in place without moving the entry; a
normal turn increments the counter and moves the entry to the
most-recently-used end; a miss evicts down below capacity and appends
a fresh session with `turnCount = 1`. -/
def getOrCreateConversation (m : ConversationManager)
    (conversationId : Option String) (now : Nat) :
    ConvResult × ConversationManager :=
  let cid := match conversationId with
    | none => "default"
    | some s => if s = "" then "default" else s
  match alistLookup m.conversations cid with
  | some conv =>
    if m.maxTurns ≤ conv.turnCount then
      let conv' : Session := ⟨m.nextUuid, none, 0, now⟩
      (⟨m.nextUuid, none, true, 0⟩,
       { m with conversations := updateVal m.conversations cid conv',
                nextUuid := m.nextUuid + 1 })
    else
      let conv' : Session :=
        { conv with turnCount := conv.turnCount + 1, lastUsed := now }
      (⟨conv.threadUuid, conv.backendUuid, false, conv.turnCount + 1⟩,
       { m with conversations := removeKey m.conversations cid ++ [(cid, conv')] })
  | none =>
    let cleaned := evictOldest m.conversations m.maxConversations
    let s : Session := ⟨m.nextUuid, none, 1, now⟩
    (⟨m.nextUuid, none, true, 1⟩,
     { m with conversations := cleaned ++ [(cid, s)],
              nextUuid := m.nextUuid + 1 })

/-- The `update_backend_uuid` operation (lines 105–110): sets the
backend identifier when the session still exists; a silent no-op
otherwise. -/
def updateBackendUuid (m : ConversationManager) (cid : String) (b : Nat) :
    ConversationManager :=
  match alistLookup m.conversations cid with
  | some conv =>
    { m with conversations :=
        updateVal m.conversations cid { conv with backendUuid := some b } }
  | none => m

/-- The `reset_conversation` operation (lines 112–117). -/
def resetConversation (m : ConversationManager) (cid : String) :
    ConversationManager :=
  match alistLookup m.conversations cid with
  | some _ => { m with conversations := removeKey m.conversations cid }
  | none => m

/-- The `active_conversations` field of `get_stats` (line 122). -/
def activeConversations (m : ConversationManager) : Nat :=
  m.conversations.length

/-- One public manager operation, as invoked by callers holding no
direct access to the store. -/
inductive MgrOp where
  | resolve (cid : Option String) (now : Nat)
  | updateBackend (cid : String) (b : Nat)
  | reset (cid : String)

/-- Whether an operation is `update_backend_uuid`. This method has no
call site anywhere in the repository: `chat_completion` (lines
142–504) only ever calls `get_or_create_conversation` (line 160), and
`stream_generator` never touches the manager. -/
def MgrOp.isUpdateBackend : MgrOp → Bool
  | .updateBackend _ _ => true
  | _ => false

/-- Applies one operation to the manager, discarding the result
value. -/
def applyOp (m : ConversationManager) : MgrOp → ConversationManager
  | .resolve cid now => (getOrCreateConversation m cid now).2
  | .updateBackend cid b => updateBackendUuid m cid b
  | .reset cid => resetConversation m cid

/-- Applies a sequence of operations in order. -/
def applyOps (m : ConversationManager) : List MgrOp → ConversationManager
  | [] => m
  | op :: ops => applyOps (applyOp m op) ops

/-- Performs `k` consecutive `resolve` calls for one conversation
identifier, with call `i` made at time `times i`; returns the last
result (if any call was made) and the final manager state. -/
def resolveIter (m : ConversationManager) (cid : String) (times : Nat → Nat) :
    Nat → Option ConvResult × ConversationManager
  | 0 => (none, m)
  | k + 1 =>
    let r := resolveIter m cid times k
    let r' := getOrCreateConversation r.2 (some cid) (times k)
    (some r'.1, r'.2)

/-- A concrete SEARCH_WEB step object, as parsed. -/
def searchWebStepVal : JVal :=
  jobj [("step_type", jstr "SEARCH_WEB"),
        ("content", jobj [("queries", jarr [jobj [("query", jstr "cats")]])])]

/-- The serialized array-of-steps payload holding exactly the step
above. -/
def searchWebStepJson : String :=
  "[\x7b\"step_type\": \"SEARCH_WEB\", \"content\": \x7b\"queries\": [\x7b\"query\": \"cats\"\x7d]\x7d\x7d]"

/-- A concrete `json.loads` behaviour: parses `searchWebStepJson` to
its actual JSON value and fails elsewhere. -/
def searchWebParse : String → Option JVal :=
  fun t => if t = searchWebStepJson then some (jarr [searchWebStepVal]) else none

lemma extendsText_append {a b : List Char} (h : extendsText a b = true) :
    a ++ b.drop a.length = b := by
  have h' : b.take a.length = a := eq_of_beq h
  calc a ++ b.drop a.length = b.take a.length ++ b.drop a.length := by rw [h']
    _ = b := List.take_append_drop _ _

lemma extendsText_eq_of_le {a b : List Char} (h : extendsText a b = true)
    (hle : b.length ≤ a.length) : a = b := by
  have h' : b.take a.length = a := eq_of_beq h
  rw [List.take_of_length_le hle] at h'
  exact h'.symm

lemma extendsText_nil_right {a : List Char} (h : extendsText a [] = true) :
    a = [] := by
  have h' : ([] : List Char).take a.length = a := eq_of_beq h
  simpa using h'.symm

lemma emitAll_chain (snaps : List (List Char)) : ∀ st : EmitState,
    List.Chain' (fun a b => extendsText a b = true) (st.lastFullText :: snaps) →
    st.lastFullText ++ concatAll (emitAll st snaps).1 = lastSnap snaps st.lastFullText := by
  induction snaps with
  | nil =>
    intro st _
    simp [emitAll, concatAll, lastSnap]
  | cons s ss ih =>
    intro st h
    rw [List.chain'_cons] at h
    obtain ⟨h1, h2⟩ := h
    show st.lastFullText ++ concatAll (emitAll st (s :: ss)).1 = lastSnap ss s
    by_cases he : s = []
    · subst he
      have hlast : st.lastFullText = [] := extendsText_nil_right h1
      have : emitDelta st [] = (none, st) := by simp [emitDelta]
      rw [show emitAll st ([] :: ss) = emitAll st ss from by
        simp [emitAll, this]]
      have := ih st (by rw [hlast]; exact h2)
      rw [this, hlast]
    · by_cases hlt : st.lastFullText.length < s.length
      · have hd : emitDelta st s =
            (some (s.drop st.lastFullText.length), ⟨s, true⟩) := by
          simp [emitDelta, he, hlt]
        have hrec := ih ⟨s, true⟩ h2
        simp only [emitAll, hd]
        simp only [concatAll]
        rw [← List.append_assoc, extendsText_append h1]
        exact hrec
      · have heq : st.lastFullText = s :=
          extendsText_eq_of_le h1 (Nat.not_lt.mp hlt)
        have hd : emitDelta st s = (none, st) := by
          simp [emitDelta, he, hlt]
        rw [show emitAll st (s :: ss) = emitAll st ss from by
          simp [emitAll, hd]]
        have := ih st (by rw [heq]; exact h2)
        rw [this, heq]

/-- C9: a decoded snapshot whose length is at most the length of
`last_full_text` produces no delta and leaves the emitter state (both
`last_full_text` and `has_emitted_content`) unchanged. -/
theorem C9_emitter_skips_nonlonger (st : EmitState) (cur : List Char)
    (h : cur.length ≤ st.lastFullText.length) :
    emitDelta st cur = (none, st) := by
  have hnlt : ¬ st.lastFullText.length < cur.length := Nat.not_lt.mpr h
  cases cur with
  | nil => simp [emitDelta]
  | cons c cs =>
    simp [emitDelta, hnlt]
    simpa using h

/-- Witness for C9 at a concrete shorter snapshot. -/
theorem C9_emitter_skips_nonlonger_witness :
    emitDelta ⟨['a', 'b'], false⟩ ['x'] = (none, ⟨['a', 'b'], false⟩) :=
  C9_emitter_skips_nonlonger ⟨['a', 'b'], false⟩ ['x'] (by decide)

/-- C10: for a non-empty snapshot strictly longer than
`last_full_text = t`, the emitted delta is exactly `s[len(t):]`,
computed by length alone with no prefix check; consequently there is a
length-monotone snapshot sequence whose concatenated deltas differ
from its final snapshot. -/
theorem C10_delta_by_length_only :
    (∀ (st : EmitState) (cur : List Char), cur ≠ [] →
      st.lastFullText.length < cur.length →
      emitDelta st cur = (some (cur.drop st.lastFullText.length), ⟨cur, true⟩)) ∧
    (List.Chain' (fun a b : List Char => a.length ≤ b.length)
        [['c', 'd'], ['p', 'q', 'r']] ∧
      concatAll (emitAll ⟨[], false⟩ [['c', 'd'], ['p', 'q', 'r']]).1 ≠
        ['p', 'q', 'r']) := by
  refine ⟨fun st cur hne hlt => ?_, ⟨by simp [List.chain'_cons], by decide⟩⟩
  cases cur with
  | nil => exact absurd rfl hne
  | cons c cs =>
    simp [emitDelta, hlt]
    simpa using hlt

/-- Witness for C10 at a concrete non-extending longer snapshot. -/
theorem C10_delta_by_length_only_witness :
    emitDelta ⟨['a', 'b'], false⟩ ['x', 'y', 'z'] =
      (some ['z'], ⟨['x', 'y', 'z'], true⟩) :=
  C10_delta_by_length_only.1 ⟨['a', 'b'], false⟩ ['x', 'y', 'z']
    (by decide) (by decide)

/-- C1 counterexample: the snapshot lengths 2 ≤ 3 are monotone, yet the
concatenated deltas "ab" ++ "z" differ from the final snapshot "xyz". -/
theorem C1_length_monotone_counterexample :
    List.Chain' (fun a b : List Char => a.length ≤ b.length)
      [['a', 'b'], ['x', 'y', 'z']] ∧
    concatAll (emitAll ⟨[], false⟩ [['a', 'b'], ['x', 'y', 'z']]).1 ≠
      ['x', 'y', 'z'] :=
  ⟨by simp [List.chain'_cons], by decide⟩

/-- C1 (amended): when every snapshot extends the previous one as a
prefix (which implies the length monotonicity the claim assumes), the
concatenation of all emitted deltas equals the last snapshot. -/
theorem C1_concat_deltas_eq_last (snaps : List (List Char))
    (h : List.Chain' (fun a b => extendsText a b = true) snaps) :
    concatAll (emitAll ⟨[], false⟩ snaps).1 = lastSnap snaps [] := by
  have hchain : List.Chain'
      (fun a b => extendsText a b = true) ([] :: snaps) := by
    cases snaps with
    | nil => exact List.chain'_singleton _
    | cons s ss =>
      rw [List.chain'_cons]
      exact ⟨by simp [extendsText], h⟩
  have := emitAll_chain snaps ⟨[], false⟩ hchain
  simpa using this

/-- Witness for the amended C1 on a concrete prefix chain. -/
theorem C1_concat_deltas_eq_last_witness :
    concatAll (emitAll ⟨[], false⟩ [['H', 'i'], ['H', 'i', '!']]).1 =
      lastSnap [['H', 'i'], ['H', 'i', '!']] [] :=
  C1_concat_deltas_eq_last [['H', 'i'], ['H', 'i', '!']]
    (by simp [List.chain'_cons, extendsText])

lemma resolveIter_succ (m : ConversationManager) (cid : String)
    (times : Nat → Nat) (k : Nat) :
    resolveIter m cid times (k + 1) =
      (some (getOrCreateConversation (resolveIter m cid times k).2
        (some cid) (times k)).1,
       (getOrCreateConversation (resolveIter m cid times k).2
        (some cid) (times k)).2) := rfl

lemma resolveIter_fresh_upToMax (times : Nat → Nat) :
    ∀ k, 1 ≤ k → k ≤ 50 →
    resolveIter (mkConversationManager 50 10) "default" times k =
      (some ⟨0, none, decide (k = 1), k⟩,
       ⟨50, 10, [("default", ⟨0, none, k, times (k - 1)⟩)], 1⟩) := by
  intro k
  induction k with
  | zero => intro h1 _; exact absurd h1 (by omega)
  | succ n ih =>
    intro _ h2
    rcases Nat.eq_zero_or_pos n with hn | hn
    · subst hn
      simp [resolveIter, getOrCreateConversation, mkConversationManager,
            alistLookup, evictOldest]
    · have hih := ih hn (by omega)
      have hlt : ¬ (50 ≤ n) := by omega
      have hne : ¬ (n = 0) := by omega
      rw [resolveIter_succ, hih]
      simp [getOrCreateConversation, alistLookup, removeKey, hlt, hne]

/-- C3: on a fresh manager (50 turns, 10 sessions), the first 50
`resolve` calls for `"default"` return turn counts 1..50 with the same
thread identifier (the first drawn token, `0`) and `is_new` only on the
first; the 51st call rotates: it returns a different thread identifier
(the next fresh token, `1 ≠ 0`), `turn_count = 0`, `is_new = true`, and
the store still holds the `"default"` entry. -/
theorem C3_fifty_turns_then_rotation :
    (∀ (times : Nat → Nat) (k : Nat), 1 ≤ k → k ≤ 50 →
      (resolveIter (mkConversationManager 50 10) "default" times k).1 =
        some ⟨0, none, decide (k = 1), k⟩) ∧
    (∀ times : Nat → Nat,
      (resolveIter (mkConversationManager 50 10) "default" times 51).1 =
        some ⟨1, none, true, 0⟩ ∧
      (resolveIter (mkConversationManager 50 10) "default" times 51).2.conversations =
        [("default", ⟨1, none, 0, times 50⟩)] ∧
      (1 : Nat) ≠ 0) := by
  constructor
  · intro times k h1 h2
    rw [resolveIter_fresh_upToMax times k h1 h2]
  · intro times
    have h50 := resolveIter_fresh_upToMax times 50 (by omega) (by omega)
    rw [show (51 : Nat) = 50 + 1 from rfl]
    refine ⟨?_, ?_, by omega⟩ <;>
      · rw [resolveIter_succ, h50]
        simp [getOrCreateConversation, alistLookup, updateVal]

/-- Witness for C3 at concrete call counts 50 and 51. -/
theorem C3_fifty_turns_then_rotation_witness :
    (resolveIter (mkConversationManager 50 10) "default" (fun _ => 0) 50).1 =
      some ⟨0, none, false, 50⟩ ∧
    (resolveIter (mkConversationManager 50 10) "default" (fun _ => 0) 51).1 =
      some ⟨1, none, true, 0⟩ :=
  ⟨C3_fifty_turns_then_rotation.1 (fun _ => 0) 50 (by decide) (by decide),
   (C3_fifty_turns_then_rotation.2 (fun _ => 0)).1⟩

lemma alistLookup_mem {xs : List (String × Session)} {k : String} {v : Session}
    (h : alistLookup xs k = some v) : (k, v) ∈ xs := by
  induction xs with
  | nil => simp [alistLookup] at h
  | cons p ps ih =>
    by_cases hk : p.1 = k
    · simp [alistLookup, hk] at h
      have hp : (k, v) = p := by
        rw [← hk, ← h]
      rw [hp]
      exact List.mem_cons_self _ _
    · simp [alistLookup, hk] at h
      exact List.mem_cons_of_mem _ (ih h)

lemma removeKey_length_lt {xs : List (String × Session)} {k : String} {v : Session}
    (h : alistLookup xs k = some v) : (removeKey xs k).length < xs.length := by
  induction xs with
  | nil => simp [alistLookup] at h
  | cons p ps ih =>
    by_cases hk : p.1 = k
    · have hb : (p.1 != k) = false := by simp [hk]
      simp only [removeKey, List.filter_cons, hb]
      have := List.length_filter_le (fun q => q.1 != k) ps
      simp only [removeKey] at *
      simp
      omega
    · simp [alistLookup, hk] at h
      have hb : (p.1 != k) = true := by simp [hk]
      simp only [removeKey, List.filter_cons, hb]
      have := ih h
      simp only [removeKey] at this
      simp
      omega

lemma updateVal_length (xs : List (String × Session)) (k : String) (v : Session) :
    (updateVal xs k v).length = xs.length := by
  simp [updateVal]

lemma evictOldest_length_lt (maxC : Nat) (h : 1 ≤ maxC) :
    ∀ xs : List (String × Session), (evictOldest xs maxC).length < maxC := by
  intro xs
  induction xs with
  | nil => simpa [evictOldest] using h
  | cons p ps ih =>
    simp only [evictOldest, List.length_cons]
    by_cases hc : maxC ≤ ps.length + 1
    · simpa [hc] using ih
    · simp only [if_neg hc, List.length_cons]
      omega

lemma getOrCreate_maxConversations (m : ConversationManager)
    (cid : Option String) (now : Nat) :
    ((getOrCreateConversation m cid now).2).maxConversations =
      m.maxConversations := by
  simp only [getOrCreateConversation]
  split
  · split <;> rfl
  · rfl

lemma getOrCreate_length (m : ConversationManager) (cid : Option String)
    (now : Nat) (h1 : 1 ≤ m.maxConversations)
    (hlen : m.conversations.length ≤ m.maxConversations) :
    ((getOrCreateConversation m cid now).2).conversations.length ≤
      m.maxConversations := by
  simp only [getOrCreateConversation]
  split
  next conv heq =>
    split
    · simpa [updateVal_length] using hlen
    · have := removeKey_length_lt heq
      simp only [List.length_append, List.length_cons, List.length_nil]
      omega
  next heq =>
    have := evictOldest_length_lt m.maxConversations h1 m.conversations
    simp only [List.length_append, List.length_cons, List.length_nil]
    omega

lemma applyOp_maxConversations (m : ConversationManager) (op : MgrOp) :
    (applyOp m op).maxConversations = m.maxConversations := by
  cases op with
  | resolve cid now => exact getOrCreate_maxConversations m cid now
  | updateBackend cid b =>
    simp only [applyOp, updateBackendUuid]
    split <;> rfl
  | reset cid =>
    simp only [applyOp, resetConversation]
    split <;> rfl

lemma applyOp_length (m : ConversationManager) (op : MgrOp)
    (h1 : 1 ≤ m.maxConversations)
    (hlen : m.conversations.length ≤ m.maxConversations) :
    (applyOp m op).conversations.length ≤ m.maxConversations := by
  cases op with
  | resolve cid now => exact getOrCreate_length m cid now h1 hlen
  | updateBackend cid b =>
    simp only [applyOp, updateBackendUuid]
    split
    · simpa [updateVal_length] using hlen
    · exact hlen
  | reset cid =>
    simp only [applyOp, resetConversation]
    split
    · have := List.length_filter_le (fun q => q.1 != cid) m.conversations
      simp only [removeKey]
      omega
    · exact hlen

lemma applyOps_bounds : ∀ (ops : List MgrOp) (m : ConversationManager),
    1 ≤ m.maxConversations →
    m.conversations.length ≤ m.maxConversations →
    (applyOps m ops).conversations.length ≤ m.maxConversations := by
  intro ops
  induction ops with
  | nil => intro m _ hlen; exact hlen
  | cons op ops ih =>
    intro m h1 hlen
    have hmc := applyOp_maxConversations m op
    have hstep := applyOp_length m op h1 hlen
    have := ih (applyOp m op) (by rw [hmc]; exact h1) (by rw [hmc]; exact hstep)
    rwa [hmc] at this

/-- C6: under any sequence of resolve / update-backend / reset
operations started from a fresh manager, the number of stored sessions
never exceeds `max_sessions` (provided the capacity is at least one, as
the default 10 is; at capacity zero the source's eviction loop would
not terminate). -/
theorem C6_store_never_exceeds_capacity (ops : List MgrOp) (maxT maxC : Nat)
    (h : 1 ≤ maxC) :
    activeConversations (applyOps (mkConversationManager maxT maxC) ops) ≤ maxC :=
  applyOps_bounds ops (mkConversationManager maxT maxC) h (by simp [mkConversationManager])

/-- Witness for C6: eleven distinct identifiers against capacity 10. -/
theorem C6_store_never_exceeds_capacity_witness :
    activeConversations (applyOps (mkConversationManager 50 10)
      [MgrOp.resolve (some "c1") 1, MgrOp.resolve (some "c2") 2,
       MgrOp.resolve (some "c3") 3, MgrOp.resolve (some "c4") 4,
       MgrOp.resolve (some "c5") 5, MgrOp.resolve (some "c6") 6,
       MgrOp.resolve (some "c7") 7, MgrOp.resolve (some "c8") 8,
       MgrOp.resolve (some "c9") 9, MgrOp.resolve (some "c10") 10,
       MgrOp.resolve (some "c11") 11]) ≤ 10 :=
  C6_store_never_exceeds_capacity
    [MgrOp.resolve (some "c1") 1, MgrOp.resolve (some "c2") 2,
     MgrOp.resolve (some "c3") 3, MgrOp.resolve (some "c4") 4,
     MgrOp.resolve (some "c5") 5, MgrOp.resolve (some "c6") 6,
     MgrOp.resolve (some "c7") 7, MgrOp.resolve (some "c8") 8,
     MgrOp.resolve (some "c9") 9, MgrOp.resolve (some "c10") 10,
     MgrOp.resolve (some "c11") 11] 50 10 (by decide)

lemma evictOldest_of_lt {xs : List (String × Session)} {maxC : Nat}
    (h : xs.length < maxC) : evictOldest xs maxC = xs := by
  cases xs with
  | nil => rfl
  | cons p ps => simp only [evictOldest, if_neg (Nat.not_le.mpr h)]

lemma evictOldest_at_capacity {xs : List (String × Session)} {maxC : Nat}
    (hc : xs.length = maxC) (h1 : 1 ≤ maxC) :
    evictOldest xs maxC = xs.tail := by
  cases xs with
  | nil =>
    simp only [List.length_nil] at hc
    omega
  | cons p ps =>
    have hle : maxC ≤ (p :: ps).length := Nat.le_of_eq hc.symm
    simp only [evictOldest, if_pos hle, List.tail_cons]
    apply evictOldest_of_lt
    simp only [List.length_cons] at hc
    omega

lemma updateVal_map_fst (xs : List (String × Session)) (k : String) (v : Session) :
    (updateVal xs k v).map Prod.fst = xs.map Prod.fst := by
  induction xs with
  | nil => rfl
  | cons p ps ih =>
    simp only [updateVal, List.map_cons] at ih ⊢
    by_cases hk : p.1 = k
    · simp [hk, ih]
    · simp [hk, ih]

/-- C7 counterexample: with `max_turns = 1` and capacity 2, resolving
"A", then "B", then "A" again (a rotation, which updates A's
`last_used` to 2 but does not move it to the recently-used end), a
fourth resolve for never-seen "C" evicts "A" — whose `last_used` (2) is
strictly more recent than surviving "B"'s (1). Eviction therefore does
not follow `last_used` recency. -/
theorem C7_least_recent_counterexample :
    (alistLookup (applyOps (mkConversationManager 1 2)
        [MgrOp.resolve (some "A") 0, MgrOp.resolve (some "B") 1,
         MgrOp.resolve (some "A") 2]).conversations "A" =
      some ⟨2, none, 0, 2⟩) ∧
    (alistLookup (applyOps (mkConversationManager 1 2)
        [MgrOp.resolve (some "A") 0, MgrOp.resolve (some "B") 1,
         MgrOp.resolve (some "A") 2]).conversations "B" =
      some ⟨1, none, 1, 1⟩) ∧
    ((1 : Nat) < 2) ∧
    (alistLookup (applyOps (mkConversationManager 1 2)
        [MgrOp.resolve (some "A") 0, MgrOp.resolve (some "B") 1,
         MgrOp.resolve (some "A") 2, MgrOp.resolve (some "C") 3]).conversations "A" =
      none) ∧
    (alistLookup (applyOps (mkConversationManager 1 2)
        [MgrOp.resolve (some "A") 0, MgrOp.resolve (some "B") 1,
         MgrOp.resolve (some "A") 2, MgrOp.resolve (some "C") 3]).conversations "B" =
      some ⟨1, none, 1, 1⟩) := by
  decide

/-- C7 (amended): when a never-seen identifier arrives at capacity, the
entry evicted is the *front of the store's insertion/access order*
(`popitem(last=False)`); that order is bumped by normal accesses and
insertions but rotation leaves the entry in place (it only updates
`last_used`, which no operation ever reads), so the evicted entry need
not be least-recent by `last_used`. -/
theorem C7_evicts_front_of_access_order :
    (∀ (m : ConversationManager) (cid : String) (t : Nat),
      cid ≠ "" →
      alistLookup m.conversations cid = none →
      m.conversations.length = m.maxConversations →
      1 ≤ m.maxConversations →
      (getOrCreateConversation m (some cid) t).2.conversations =
        m.conversations.tail ++ [(cid, ⟨m.nextUuid, none, 1, t⟩)]) ∧
    (∀ (m : ConversationManager) (cid : String) (t : Nat) (conv : Session),
      cid ≠ "" →
      alistLookup m.conversations cid = some conv →
      m.maxTurns ≤ conv.turnCount →
      ((getOrCreateConversation m (some cid) t).2.conversations).map Prod.fst =
        m.conversations.map Prod.fst) := by
  constructor
  · intro m cid t hne hl hc h1
    simp only [getOrCreateConversation, if_neg hne, hl]
    rw [evictOldest_at_capacity hc h1]
  · intro m cid t conv hne hl ht
    simp only [getOrCreateConversation, if_neg hne, hl, if_pos ht]
    exact updateVal_map_fst _ _ _

/-- Witness for the amended C7: at capacity 2 the front entry "A" is
evicted when "C" arrives. -/
theorem C7_evicts_front_of_access_order_witness :
    (getOrCreateConversation
        ⟨50, 2, [("A", ⟨0, none, 1, 0⟩), ("B", ⟨1, none, 1, 1⟩)], 2⟩
        (some "C") 5).2.conversations =
      [("B", ⟨1, none, 1, 1⟩), ("C", ⟨2, none, 1, 5⟩)] :=
  C7_evicts_front_of_access_order.1
    ⟨50, 2, [("A", ⟨0, none, 1, 0⟩), ("B", ⟨1, none, 1, 1⟩)], 2⟩
    "C" 5 (by decide) (by decide) (by decide) (by decide)

lemma mem_updateVal {xs : List (String × Session)} {k : String} {v : Session}
    {p : String × Session} (h : p ∈ updateVal xs k v) : p = (k, v) ∨ p ∈ xs := by
  simp only [updateVal, List.mem_map] at h
  obtain ⟨q, hq, hpq⟩ := h
  by_cases hk : q.1 = k
  · left
    rw [← hpq]
    simp [hk]
  · right
    rw [← hpq]
    simpa [hk] using hq

lemma mem_evictOldest {maxC : Nat} {p : String × Session} :
    ∀ {xs : List (String × Session)}, p ∈ evictOldest xs maxC → p ∈ xs := by
  intro xs
  induction xs with
  | nil =>
    intro h
    simp [evictOldest] at h
  | cons q qs ih =>
    intro h
    simp only [evictOldest] at h
    by_cases hc : maxC ≤ (q :: qs).length
    · exact List.mem_cons_of_mem _ (ih (by rwa [if_pos hc] at h))
    · rwa [if_neg hc] at h

lemma applyOp_backend_none (m : ConversationManager) (op : MgrOp)
    (hop : op.isUpdateBackend = false)
    (hinv : ∀ p ∈ m.conversations, p.2.backendUuid = none) :
    ∀ p ∈ (applyOp m op).conversations, p.2.backendUuid = none := by
  cases op with
  | resolve cid now =>
    simp only [applyOp, getOrCreateConversation]
    split
    next conv heq =>
      split
      · intro p hp
        rcases mem_updateVal hp with h | h
        · rw [h]
        · exact hinv p h
      · intro p hp
        rcases List.mem_append.mp hp with h | h
        · exact hinv p (List.mem_of_mem_filter h)
        · have hc := hinv _ (alistLookup_mem heq)
          simp only [List.mem_singleton] at h
          rw [h]
          exact hc
    next heq =>
      intro p hp
      rcases List.mem_append.mp hp with h | h
      · exact hinv p (mem_evictOldest h)
      · simp only [List.mem_singleton] at h
        rw [h]
  | updateBackend cid b => simp [MgrOp.isUpdateBackend] at hop
  | reset cid =>
    simp only [applyOp, resetConversation]
    split
    · intro p hp
      exact hinv p (List.mem_of_mem_filter hp)
    · exact hinv

/-- C4: contrary to the claim, the manager's `backend_id` is never set
after a completed stream: `update_backend_uuid` has no call site in the
repository, so under every operation sequence the code actually
performs (any mix of resolves and resets, i.e. no `update_backend_uuid`
operation), every stored session still has `backend_uuid = None`. -/
theorem C4_backend_uuid_never_set :
    ∀ (ops : List MgrOp), (∀ op ∈ ops, op.isUpdateBackend = false) →
    ∀ (cid : String) (s : Session),
      alistLookup (applyOps (mkConversationManager 50 10) ops).conversations cid
        = some s →
      s.backendUuid = none := by
  have main : ∀ (ops : List MgrOp) (m : ConversationManager),
      (∀ op ∈ ops, op.isUpdateBackend = false) →
      (∀ p ∈ m.conversations, p.2.backendUuid = none) →
      ∀ p ∈ (applyOps m ops).conversations, p.2.backendUuid = none := by
    intro ops
    induction ops with
    | nil => intro m _ hinv; exact hinv
    | cons op ops ih =>
      intro m hops hinv
      exact ih (applyOp m op) (fun o ho => hops o (List.mem_cons_of_mem _ ho))
        (applyOp_backend_none m op (hops op (List.mem_cons_self _ _)) hinv)
  intro ops hops cid s hl
  exact main ops (mkConversationManager 50 10) hops
    (by simp [mkConversationManager]) (cid, s) (alistLookup_mem hl)

/-- Witness for C4: after one completed request for "default", the
stored session still has no backend identifier. -/
theorem C4_backend_uuid_never_set_witness :
    alistLookup (applyOps (mkConversationManager 50 10)
        [MgrOp.resolve (some "default") 0]).conversations "default" =
      some ⟨0, none, 1, 0⟩ ∧
    (⟨0, none, 1, 0⟩ : Session).backendUuid = none :=
  ⟨by decide,
   C4_backend_uuid_never_set [MgrOp.resolve (some "default") 0] (by decide)
     "default" ⟨0, none, 1, 0⟩ (by decide)⟩

/-- C5 counterexample: the same array-of-steps payload (one SEARCH_WEB
step) decodes to the searching notice under the `"answer"` key but to
the empty string under the `"text"` key, whose step loop (lines
325–336) handles only FINAL steps. -/
theorem C5_text_branch_ignores_search_steps :
    decodeAnswerBranch searchWebParse (jstr searchWebStepJson) =
      jstr "> 🔍 Searching: cats\n\n" ∧
    decodeTextBranch searchWebParse (jstr searchWebStepJson) = jstr "" ∧
    "> 🔍 Searching: cats\n\n" ≠ "" :=
  ⟨rfl, rfl, by decide⟩

lemma mapM_loop_queryName (names : List String) : ∀ acc : List String,
    List.mapM.loop queryName
        (names.map (fun q => jobj [("query", jstr q)])) acc =
      some (acc.reverse ++ names) := by
  induction names with
  | nil => intro acc; simp [List.mapM.loop]
  | cons n ns ih =>
    intro acc
    simp [List.mapM.loop, queryName, pyIndexKey, jLookup, ih]

/-- C5 (amended): steps found under the `"answer"` key are processed as
the claim describes — SEARCH_WEB steps contribute the searching notice
with the joined queries, SEARCH_RESULTS steps with non-empty
`web_results` contribute the sources notice, FINAL steps append their
answer, using its string representation when it is not a string — but
the `"text"` key branch processes steps identically only for FINAL
steps whose answer is a string: it ignores SEARCH_WEB and
SEARCH_RESULTS steps entirely, and ignores FINAL answers that are not
strings. -/
theorem C5_step_processing_by_key :
    (∀ (parse : String → Option JVal) (acc : String)
        (fs cs : List (String × JVal)) (s : String),
      (jLookup fs "step_type").getD jnull = jstr "FINAL" →
      (jLookup fs "content").getD (jobj []) = jobj cs →
      (jLookup cs "answer").getD jnull = jstr s →
      stepAccAnswer parse acc (jobj fs) =
        some (acc ++ finalNestedContribution parse s) ∧
      stepAccText parse acc (jobj fs) =
        some (acc ++ finalNestedContribution parse s)) ∧
    (∀ (parse : String → Option JVal) (acc : String)
        (fs : List (String × JVal)),
      ((jLookup fs "step_type").getD jnull = jstr "SEARCH_WEB" ∨
       (jLookup fs "step_type").getD jnull = jstr "SEARCH_RESULTS") →
      stepAccText parse acc (jobj fs) = some acc) ∧
    (∀ (parse : String → Option JVal) (acc : String)
        (fs cs : List (String × JVal)) (names : List String),
      (jLookup fs "step_type").getD jnull = jstr "SEARCH_WEB" →
      (jLookup fs "content").getD (jobj []) = jobj cs →
      (jLookup cs "queries").getD (jarr []) =
        jarr (names.map (fun q => jobj [("query", jstr q)])) →
      stepAccAnswer parse acc (jobj fs) =
        some (acc ++ "> 🔍 Searching: " ++ joinSep ", " names ++ "\n\n")) ∧
    (∀ (parse : String → Option JVal) (acc : String)
        (fs cs : List (String × JVal)) (rs : List JVal),
      (jLookup fs "step_type").getD jnull = jstr "SEARCH_RESULTS" →
      (jLookup fs "content").getD (jobj []) = jobj cs →
      (jLookup cs "web_results").getD (jarr []) = jarr rs →
      rs ≠ [] →
      stepAccAnswer parse acc (jobj fs) =
        some (acc ++ "> 📚 Found " ++ toString rs.length ++ " sources\n\n")) ∧
    (∀ (parse : String → Option JVal) (acc : String)
        (fs cs : List (String × JVal)) (v : JVal),
      (jLookup fs "step_type").getD jnull = jstr "FINAL" →
      (jLookup fs "content").getD (jobj []) = jobj cs →
      (jLookup cs "answer").getD jnull = v →
      (∀ s, v ≠ jstr s) →
      stepAccAnswer parse acc (jobj fs) = some (acc ++ pyStr v) ∧
      stepAccText parse acc (jobj fs) = some acc) := by
  refine ⟨?_, ?_, ?_, ?_, ?_⟩
  · intro parse acc fs cs s h1 h2 h3
    constructor
    · simp [stepAccAnswer, pyGetDefault, h1, h2, h3]
    · simp [stepAccText, pyGetDefault, h1, h2, h3]
  · intro parse acc fs h
    rcases h with h | h <;> simp [stepAccText, pyGetDefault, h]
  · intro parse acc fs cs names h1 h2 h3
    simp [stepAccAnswer, pyGetDefault, pyIterList, h1, h2, h3,
          mapM_loop_queryName]
  · intro parse acc fs cs rs h1 h2 h3 h4
    simp [stepAccAnswer, pyGetDefault, pyTruthy, pyLen, h1, h2, h3, h4]
  · intro parse acc fs cs v h1 h2 h3 h4
    cases v with
    | jstr s => exact absurd rfl (h4 s)
    | jnull =>
      constructor
      · simp [stepAccAnswer, pyGetDefault, h1, h2, h3]
      · simp [stepAccText, pyGetDefault, h1, h2, h3]
    | jbool b =>
      constructor
      · simp [stepAccAnswer, pyGetDefault, h1, h2, h3]
      · simp [stepAccText, pyGetDefault, h1, h2, h3]
    | jnum n =>
      constructor
      · simp [stepAccAnswer, pyGetDefault, h1, h2, h3]
      · simp [stepAccText, pyGetDefault, h1, h2, h3]
    | jarr xs =>
      constructor
      · simp [stepAccAnswer, pyGetDefault, h1, h2, h3]
      · simp [stepAccText, pyGetDefault, h1, h2, h3]
    | jobj gs =>
      constructor
      · simp [stepAccAnswer, pyGetDefault, h1, h2, h3]
      · simp [stepAccText, pyGetDefault, h1, h2, h3]

/-- Witness for the amended C5: a FINAL step treated alike by both
branches, a SEARCH_WEB step ignored by the text branch but rendered by
the answer branch, a SEARCH_RESULTS step rendered by the answer
branch, and a non-string FINAL answer appended as `str()` by the
answer branch but ignored by the text branch. -/
theorem C5_step_processing_by_key_witness :
    (stepAccAnswer searchWebParse ""
        (jobj [("step_type", jstr "FINAL"),
               ("content", jobj [("answer", jstr "hi")])]) =
      some ("" ++ finalNestedContribution searchWebParse "hi") ∧
     stepAccText searchWebParse ""
        (jobj [("step_type", jstr "FINAL"),
               ("content", jobj [("answer", jstr "hi")])]) =
      some ("" ++ finalNestedContribution searchWebParse "hi")) ∧
    stepAccText searchWebParse "" searchWebStepVal = some "" ∧
    stepAccAnswer searchWebParse "" searchWebStepVal =
      some ("" ++ "> 🔍 Searching: " ++ joinSep ", " ["cats"] ++ "\n\n") ∧
    stepAccAnswer searchWebParse ""
        (jobj [("step_type", jstr "SEARCH_RESULTS"),
               ("content", jobj [("web_results", jarr [jnull, jnull])])]) =
      some ("" ++ "> 📚 Found " ++ toString ([jnull, jnull].length) ++
        " sources\n\n") ∧
    (stepAccAnswer searchWebParse ""
        (jobj [("step_type", jstr "FINAL"),
               ("content", jobj [("answer", jnum 5)])]) =
      some ("" ++ pyStr (jnum 5)) ∧
     stepAccText searchWebParse ""
        (jobj [("step_type", jstr "FINAL"),
               ("content", jobj [("answer", jnum 5)])]) =
      some "") :=
  ⟨C5_step_processing_by_key.1 searchWebParse ""
      [("step_type", jstr "FINAL"), ("content", jobj [("answer", jstr "hi")])]
      [("answer", jstr "hi")] "hi" rfl rfl rfl,
   C5_step_processing_by_key.2.1 searchWebParse ""
      [("step_type", jstr "SEARCH_WEB"),
       ("content", jobj [("queries", jarr [jobj [("query", jstr "cats")]])])]
      (Or.inl rfl),
   C5_step_processing_by_key.2.2.1 searchWebParse ""
      [("step_type", jstr "SEARCH_WEB"),
       ("content", jobj [("queries", jarr [jobj [("query", jstr "cats")]])])]
      [("queries", jarr [jobj [("query", jstr "cats")]])] ["cats"] rfl rfl rfl,
   C5_step_processing_by_key.2.2.2.1 searchWebParse ""
      [("step_type", jstr "SEARCH_RESULTS"),
       ("content", jobj [("web_results", jarr [jnull, jnull])])]
      [("web_results", jarr [jnull, jnull])] [jnull, jnull]
      rfl rfl rfl (by simp),
   C5_step_processing_by_key.2.2.2.2 searchWebParse ""
      [("step_type", jstr "FINAL"), ("content", jobj [("answer", jnum 5)])]
      [("answer", jnum 5)] (jnum 5) rfl rfl rfl (by simp)⟩

/-- C8: the Envelope Decoder is total on JSON-object events (no
exception ever escapes to the per-line handler); an object with neither
an `"answer"` nor a `"text"` key decodes to the inert empty text; a
failed parse of an array-of-steps payload, of an inner-object payload,
or of a nested FINAL answer degrades to the offending raw string. -/
theorem C8_decoder_total_and_degrading :
    (∀ (parse : String → Option JVal) (fs : List (String × JVal)),
      (decodeEvent parse (jobj fs)).isSome = true) ∧
    (∀ (parse : String → Option JVal) (fs : List (String × JVal)),
      jLookup fs "answer" = none → jLookup fs "text" = none →
      decodeEvent parse (jobj fs) = some (jstr "")) ∧
    (∀ (parse : String → Option JVal) (s : String),
      strStartsWith (pyStrip s) "[" = true → parse s = none →
      decodeAnswerBranch parse (jstr s) = jstr s ∧
      decodeTextBranch parse (jstr s) = jstr s) ∧
    (∀ (parse : String → Option JVal) (s : String),
      ¬ strStartsWith (pyStrip s) "[" = true →
      strStartsWith (pyStrip s) "\x7b" = true → parse s = none →
      decodeAnswerBranch parse (jstr s) = jstr s ∧
      decodeTextBranch parse (jstr s) = jstr s) ∧
    (∀ (parse : String → Option JVal) (a : String),
      parse a = none → finalNestedContribution parse a = a) := by
  refine ⟨?_, ?_, ?_, ?_, ?_⟩
  · intro parse fs
    rcases ha : jLookup fs "answer" with _ | v <;>
      rcases ht : jLookup fs "text" with _ | w <;>
        simp [decodeEvent, pyContains, pyIndexKey, ha, ht]
  · intro parse fs ha ht
    simp [decodeEvent, pyContains, pyIndexKey, ha, ht]
  · intro parse s h1 h2
    constructor
    · simp [decodeAnswerBranch, tryAnswer, h1, h2]
    · simp [decodeTextBranch, tryText, h1, h2]
  · intro parse s h1 h2 h3
    constructor
    · simp [decodeAnswerBranch, tryAnswer, h1, h2, h3]
    · simp [decodeTextBranch, tryText, h1, h2, h3]
  · intro parse a h
    simp [finalNestedContribution, h]

/-- Witness for C8 on concrete malformed payloads. -/
theorem C8_decoder_total_and_degrading_witness :
    decodeEvent (fun _ => none) (jobj [("other", jnull)]) = some (jstr "") ∧
    decodeAnswerBranch (fun _ => none) (jstr "[broken") = jstr "[broken" ∧
    decodeTextBranch (fun _ => none) (jstr "\x7bbroken") = jstr "\x7bbroken" ∧
    finalNestedContribution (fun _ => none) "not json" = "not json" :=
  ⟨C8_decoder_total_and_degrading.2.1 (fun _ => none) [("other", jnull)] rfl rfl,
   (C8_decoder_total_and_degrading.2.2.1 (fun _ => none) "[broken"
      (by decide) rfl).1,
   (C8_decoder_total_and_degrading.2.2.2.1 (fun _ => none) "\x7bbroken"
      (by decide) (by decide) rfl).2,
   C8_decoder_total_and_degrading.2.2.2.2 (fun _ => none) "not json" rfl⟩

/-- C2 counterexample: on upstream status 403 the outbound stream is
not a three-element sequence of a content frame (null finish reason),
an empty stop frame, and the sentinel — the source emits only two
frames (the error content and the stop marker are one frame). -/
theorem C2_separate_stop_frame_counterexample :
    ¬ ∃ c : JVal,
      streamGenerator (fun _ => none) 403 [] =
        [Frame.chunk c none, Frame.chunk (jstr "") (some "stop"), Frame.done] := by
  rintro ⟨c, hc⟩
  have h2 : streamGenerator (fun _ => none) 403 [] =
      [Frame.chunk (jstr (upstreamErrorMessage 403)) (some "stop"), Frame.done] := by
    simp [streamGenerator]
  rw [h2] at hc
  have hlen := congrArg List.length hc
  simp at hlen

/-- C2 (amended): for every non-success upstream status the outbound
stream is exactly one frame that both names the status code in its
content and carries `finish_reason = "stop"` (content and stop combined
in a single frame), followed by the `[DONE]` sentinel, and nothing
else. -/
theorem C2_error_path_frames (parse : String → Option JVal)
    (status : Nat) (lines : List String) (h : status ≠ 200) :
    streamGenerator parse status lines =
      [Frame.chunk (jstr (upstreamErrorMessage status)) (some "stop"),
       Frame.done] := by
  simp [streamGenerator, h]

/-- Witness for the amended C2 at status 403. -/
theorem C2_error_path_frames_witness :
    streamGenerator (fun _ => none) 403 [] =
      [Frame.chunk (jstr (upstreamErrorMessage 403)) (some "stop"),
       Frame.done] :=
  C2_error_path_frames (fun _ => none) 403 [] (by decide)
